import Mathlib

/-!
Shallow embedding of `picamserver.py` (and the basename parser of
`moveimages.py`) together with proofs about the behaviour of its
stream multiplexer, interruptible timer, timelapse scheduler, filename
generator and day/night classifier.

Conventions of the embedding:
* Sinks (open client connections) and storage folders are identified by
  natural numbers; the outcome of the I/O call on a sink or folder is an
  explicit parameter (`fails : _ → Bool`), since whether a given `write`
  raises depends only on the state of that sink/folder at that moment.
* Wall-clock instants are whole microseconds since an epoch that falls on
  a midnight, matching `datetime`'s microsecond resolution.
* Code that can raise an exception is modelled in `Except`; a Python
  `try/except` around a statement is a `match` on that `Except` value.
-/

/-- A sink identifier (one client connection's `wfile`). -/
abbrev Sink := ℕ

/-- `StreamTee`: the multiplexer object.  Its constructor takes a *copy*
of the set of streams handed to it (`self.__streams = set(streams)`). -/
structure StreamTee where
  streams : Finset Sink
deriving DecidableEq

/-- Observable outcome of one `StreamTee.write` call: the tee state
afterwards, the sinks whose `write(b)` call succeeded (so the bytes were
delivered to them), and the sinks on which `close()` was invoked. -/
structure WriteResult where
  tee : StreamTee
  delivered : Finset Sink
  closed : Finset Sink
deriving DecidableEq

/-- `s.write(b)` on a single sink: raises iff the sink is broken
(`fails s = true`). -/
def sinkWrite (fails : Sink → Bool) (s : Sink) : Except Unit Unit :=
  if fails s then Except.error () else Except.ok ()

/-- Body of the `for s in set(self.__streams)` loop of `StreamTee.write`:
attempt `s.write(b)`; on exception discard `s` from the tee's set and call
`s.close()` (itself wrapped in `try/except: pass`, so only the fact that
close was invoked is recorded). -/
def writeStep (fails : Sink → Bool) (r : WriteResult) (s : Sink) :
    Except Unit WriteResult :=
  match sinkWrite fails s with
  | Except.ok _ => Except.ok { r with delivered := insert s r.delivered }
  | Except.error _ =>
      Except.ok { tee := StreamTee.mk (r.tee.streams.erase s),
                  delivered := r.delivered,
                  closed := insert s r.closed }

/-- `StreamTee.write(b)`: iterate a snapshot of the stream set (the source
iterates `set(self.__streams)`; we iterate it in sorted order, which is one
admissible iteration order of a Python set). -/
def StreamTee.write (fails : Sink → Bool) (t : StreamTee) :
    Except Unit WriteResult :=
  (t.streams.sort (· ≤ ·)).foldlM (writeStep fails) (WriteResult.mk t ∅ ∅)

/-- The tee state after one `write` broadcast (`StreamTee.write` never
returns `Except.error`, so the error arm is unreachable). -/
def teeAfterWrite (fails : Sink → Bool) (t : StreamTee) : StreamTee :=
  match StreamTee.write fails t with
  | Except.ok r => r.tee
  | Except.error _ => t

/-- The tee state after a sequence of broadcasts on the same tee object. -/
def teeAfterBroadcasts (l : List (Sink → Bool)) (t : StreamTee) : StreamTee :=
  l.foldl (fun t f => teeAfterWrite f t) t

/-- `TcpVideoStreamServer` state: the server's own `outputs` set and the
`StreamTee` currently registered with the camera encoder. -/
structure TcpVideoStreamServer where
  outputs : Finset Sink
  tee : StreamTee
deriving DecidableEq

/-- One broadcast from the encoder callback: `StreamTee.write` on the
current tee. -/
def TcpVideoStreamServer.broadcast (fails : Sink → Bool)
    (sv : TcpVideoStreamServer) : TcpVideoStreamServer :=
  { sv with tee := teeAfterWrite fails sv.tee }

/-- `add_output`: adds the sink to `self.outputs`, then `_outputs_changed`
calls `split_recording(StreamTee(self.outputs))`, installing a fresh tee
built from a copy of the whole `outputs` set. -/
def TcpVideoStreamServer.add_output (s : Sink)
    (sv : TcpVideoStreamServer) : TcpVideoStreamServer :=
  { outputs := insert s sv.outputs, tee := StreamTee.mk (insert s sv.outputs) }

/-- `remove_output`: discards the sink from `self.outputs`, then
`_outputs_changed` installs a fresh tee built from `outputs`. -/
def TcpVideoStreamServer.remove_output (s : Sink)
    (sv : TcpVideoStreamServer) : TcpVideoStreamServer :=
  { outputs := sv.outputs.erase s, tee := StreamTee.mk (sv.outputs.erase s) }

/-- `Timer`: the state is the number of tokens currently in `self.q`
(`queue.Queue()` is an *unbounded* FIFO; every enqueued item is `None`,
so only the count matters). -/
abbrev Timer := ℕ

/-- `Timer.interrupt()`: `self.q.put(None)` — enqueue one token. -/
def Timer.interrupt (q : Timer) : Timer := Nat.succ q

/-- `Timer.sleep(seconds)`: `self.q.get(timeout=seconds)`.  If a token is
available the get returns immediately (the sleep is interrupted early,
first component `true`) and the token is consumed; otherwise the full
timeout elapses and `queue.Empty` is caught (first component `false`). -/
def Timer.sleep : Timer → Bool × Timer
  | Nat.zero => (false, Nat.zero)
  | Nat.succ q => (true, q)

/-- A storage root folder. -/
abbrev Folder := ℕ

/-- `Timelapse._write_to_file(input, root_folders)`: iterate over a
snapshot `set(root_folders)`; each iteration computes the md5 sum,
generates a file name, creates the directory and writes the file, all
inside a `try` whose `except` clause logs and sets `success = False`.
`fails f = true` models any exception raised inside the iteration for
folder `f`.  The returned flag starts at `True` and is cleared by *any*
failing folder, so it is `True` iff every folder's write succeeded
(vacuously `True` for an empty folder set); conjunction is commutative,
so the iteration order of the Python set is irrelevant and the loop is
a fold of `&&` over the set. -/
def write_to_file (fails : Folder → Bool) (folders : Finset Folder) : Bool :=
  folders.fold (· && ·) true (fun f => !fails f)

/-- The set of folders an invocation of `_write_to_file` actually wrote an
image file into: the folders of the set whose iteration did not raise. -/
def written_folders (fails : Folder → Bool) (folders : Finset Folder) :
    Finset Folder :=
  folders.filter (fun f => fails f = false)

/-- The `for fallback_folder in self.fallback_folders` loop at the end of
one iteration of `Timelapse.__run`: for each element of the fallback set
(the first argument below is the number of elements still to be iterated,
initially the set's cardinality), if `success` is already true the loop
breaks; otherwise it calls `_write_to_file(mem_stream,
self.fallback_folders)` — note: with the *whole* fallback set, once per
remaining loop iteration.  Returns the final `success` flag and the
number of `_write_to_file` calls made on the fallback set. -/
def fallback_loop (ff : Folder → Bool) (fallback : Finset Folder) :
    ℕ → Bool → Bool × ℕ
  | 0, success => (success, 0)
  | Nat.succ n, success =>
      if success then (success, 0)
      else
        let p := fallback_loop ff fallback n (write_to_file ff fallback)
        (p.1, p.2 + 1)

/-- One tick of `Timelapse.__run` after a successful capture: write to the
primary root folders, then run the fallback loop.  Returns the final
success flag and how many times `_write_to_file` was invoked on the
fallback set. -/
def run_tick (pf ff : Folder → Bool) (primary fallback : Finset Folder) :
    Bool × ℕ :=
  fallback_loop ff fallback fallback.card (write_to_file pf primary)

/-- One full iteration of the `while self.keep_running` loop body of
`Timelapse.__run`: `self.camera.capture(mem_stream, 'jpeg')` is executed
with *no* surrounding `try/except`, so if the capture raises the
exception propagates out of `__run` (modelled as `Except.error`);
otherwise the tick writes its folders via `run_tick`. -/
structure CycleInput where
  captureRaises : Bool
  primary : Finset Folder
  fallback : Finset Folder
  pf : Folder → Bool
  ff : Folder → Bool

def run_cycle (c : CycleInput) : Except Unit (Bool × ℕ) :=
  if c.captureRaises then Except.error ()
  else Except.ok (run_tick c.pf c.ff c.primary c.fallback)

/-- The run loop over a sequence of cycles: an exception escaping one
cycle terminates the loop (the daemon thread running `__run` dies) and no
later cycle executes. -/
def run_loop : List CycleInput → Except Unit (List (Bool × ℕ))
  | [] => Except.ok []
  | c :: rest =>
      match run_cycle c with
      | Except.error e => Except.error e
      | Except.ok r =>
          match run_loop rest with
          | Except.error e => Except.error e
          | Except.ok rs => Except.ok (r :: rs)

/-- Second-of-day of an instant given in whole microseconds since an
epoch midnight: `(dt.replace(tzinfo=None) - dt.min).seconds` is the
number of whole seconds since the most recent midnight. -/
def secOfDay (t : ℕ) : ℕ := t / 1000000 % 86400

/-- The `.microsecond` field of the instant. -/
def microOf (t : ℕ) : ℕ := t % 1000000

/-- `Timelapse.__floorTime(dt, delta)` with `dt = t` microseconds and
`delta = r` microseconds.  The source computes
`rounding = (seconds // roundTo) * roundTo` with `roundTo` in (possibly
fractional) seconds and returns
`dt + timedelta(0, rounding - seconds, -dt.microsecond)`; in exact
arithmetic over microseconds that is
`dt - dt.microsecond - (seconds * 10^6) mod r`. -/
def floorTime (t r : ℕ) : ℕ :=
  t - microOf t - secOfDay t * 1000000 % r

/-- `Timelapse.__wait_until_next_capture`: the next capture instant is
`floorTime(now + interval, interval)`. -/
def next_capture (now interval : ℕ) : ℕ :=
  floorTime (now + interval) interval

/-- `Timelapse._is_night(time)`: `time < dawn(date=time) or
dusk(date=time) < time`.  The solar position calculator is a pure
function of the instant's date, modelled as functions `dawn dusk : ℤ → ℤ`
of the queried instant; instants are integers (e.g. microsecond
timestamps). -/
def is_night (dawn dusk : ℤ → ℤ) (t : ℤ) : Bool :=
  decide (t < dawn t) || decide (dusk t < t)

/-- Decimal rendering of a natural number (`'%d' % k`), most significant
digit first: the base-10 digits of `k` mapped to ASCII.  For `k = 0` this
is empty, but the scheduler only ever renders suffix integers ≥ 1. -/
def natDecimal (k : ℕ) : List Char :=
  (Nat.digits 10 k).reverse.map (fun d => Char.ofNat (48 + d))

/-- The suffix string of candidate `k` of the `generate_filename` loop:
empty on the first iteration (`suffix_str = ''`), `'_%d' % k`
afterwards. -/
def suffixStr (k : ℕ) : String :=
  if k = 0 then "" else "_" ++ String.mk (natDecimal k)

/-- `FILE_NAME_TEMPLATE = 'img_%(datetimestr)s_md5-%(md5sum)s%(suffix)s.jpg'`. -/
def fileNameStr (datetimestr md5sum suffix : String) : String :=
  "img_" ++ datetimestr ++ "_md5-" ++ md5sum ++ suffix ++ ".jpg"

/-- Candidate path number `k` of `Timelapse.generate_filename`:
`os.path.join(root_folder, subdir, file_name)` with
`subdir = SUBDIR_TEMPLATE % ... = datestr + os.sep + night_str`.  The
rendering assumes the root folder is written without a trailing
separator; for the day case (`night_str = ''`) `os.path.join` collapses
the separator of the empty segment, giving `root/datestr/file`. -/
def candidate (root datestr datetimestr md5sum : String) (night : Bool)
    (k : ℕ) : String :=
  root ++ "/" ++ datestr ++ "/" ++ (if night then "night/" else "")
    ++ fileNameStr datetimestr md5sum (suffixStr k)

/-- The `while suffix_int == 0 or os.path.exists(filename)` loop of
`generate_filename`: starting from suffix index `k`, return the first
index whose candidate path does not exist (`ex` is the set of paths
existing on the filesystem).  The fuel argument bounds the search; the
caller passes `ex.card + 1`, which always suffices because distinct
indices give distinct candidate paths and only finitely many paths
exist. -/
def find_free (ex : Finset String) (root datestr datetimestr md5sum : String)
    (night : Bool) : ℕ → ℕ → ℕ
  | 0, k => k
  | Nat.succ fuel, k =>
      if candidate root datestr datetimestr md5sum night k ∈ ex then
        find_free ex root datestr datetimestr md5sum night fuel (k + 1)
      else k

/-- `Timelapse.generate_filename(root_folder, time, md5sum)`: the first
candidate path (in suffix order `'', '_1', '_2', …`) that does not exist
on the filesystem.  It is a pure function of the filesystem state `ex`,
the root folder, the rendered capture timestamp (`datestr`,
`datetimestr`), the digest and the night flag. -/
def generate_filename (ex : Finset String)
    (root datestr datetimestr md5sum : String) (night : Bool) : String :=
  candidate root datestr datetimestr md5sum night
    (find_free ex root datestr datetimestr md5sum night (ex.card + 1) 0)

/-- One character of the class `[0-9A-Fa-f]` of `MD5SUM_REGEX`. -/
def isHexDigit (c : Char) : Bool :=
  (('0' ≤ c && c ≤ '9') || ('a' ≤ c && c ≤ 'f') || ('A' ≤ c && c ≤ 'F'))

/-- Whether `MD5SUM_REGEX = r"_md5-(?P<md5sum>[0-9A-Fa-f]32)[_\\.]"`
matches at the head of the character list: the literal `_md5-`, then
*one* character of the hex class, then the two literal characters `3` and
`2` (the `{}` around `32` are missing in the source, so `32` is matched
literally rather than being a repetition count), then `_` or `.`. -/
def md5PatAt (l : List Char) : Bool :=
  match l with
  | '_' :: 'm' :: 'd' :: '5' :: '-' :: h :: '3' :: '2' :: c :: _ =>
      isHexDigit h && (c == '_' || c == '.')
  | _ => false

/-- The text captured by the group `(?P<md5sum>...)` when the pattern
matches at the head: the three characters after `_md5-`. -/
def md5Group (l : List Char) : List Char := (l.drop 5).take 3

/-- `re.search`: scan left to right for the first position where the
pattern matches; return the captured group, or `none` when no position
matches. -/
def md5Scan : List Char → Option (List Char)
  | [] => none
  | c :: rest =>
      if md5PatAt (c :: rest) then some (md5Group (c :: rest))
      else md5Scan rest

/-- `get_md5sum(path, try_from_basename=True)`'s basename-parsing phase:
`MD5SUM_REGEX.search(os.path.basename(path))`, returning the `md5sum`
group on a match.  When this returns `none`, `get_md5sum` falls back to
reading the whole file and hashing it. -/
def get_md5sum_from_basename (s : String) : Option String :=
  (md5Scan s.data).map (fun g => String.mk g)

lemma erase_sdiff_insert (a F : Finset Sink) (s : Sink) :
    (a.erase s) \ F = a \ insert s F := by
  ext x
  simp only [Finset.mem_sdiff, Finset.mem_erase, Finset.mem_insert]
  tauto

lemma insert_union_comm (a F : Finset Sink) (s : Sink) :
    insert s a ∪ F = a ∪ insert s F := by
  ext x
  simp only [Finset.mem_insert, Finset.mem_union]
  tauto

lemma writeStep_foldlM (fails : Sink → Bool) (l : List Sink)
    (r : WriteResult) :
    l.foldlM (writeStep fails) r = Except.ok
      { tee := StreamTee.mk (r.tee.streams \ (l.filter fails).toFinset),
        delivered := r.delivered ∪ (l.filter (fun s => !fails s)).toFinset,
        closed := r.closed ∪ (l.filter fails).toFinset } := by
  induction l generalizing r with
  | nil =>
      simp only [List.foldlM_nil, List.filter_nil, List.toFinset_nil,
        Finset.sdiff_empty, Finset.union_empty]
      rfl
  | cons s rest ih =>
      rw [List.foldlM_cons]
      by_cases hs : fails s = true
      · have hstep : writeStep fails r s = Except.ok
            (WriteResult.mk (StreamTee.mk (r.tee.streams.erase s))
              r.delivered (insert s r.closed)) := by
          simp [writeStep, sinkWrite, hs]
        rw [hstep]
        show List.foldlM (writeStep fails)
          (WriteResult.mk (StreamTee.mk (r.tee.streams.erase s))
            r.delivered (insert s r.closed)) rest = _
        rw [ih]
        refine congrArg Except.ok ?_
        have hfc1 : List.filter fails (s :: rest)
            = s :: List.filter fails rest := by
          simp [List.filter_cons, hs]
        have hfc2 : List.filter (fun x => !fails x) (s :: rest)
            = List.filter (fun x => !fails x) rest := by
          simp [List.filter_cons, hs]
        rw [hfc1, hfc2, List.toFinset_cons, erase_sdiff_insert,
          insert_union_comm]
      · have hstep : writeStep fails r s = Except.ok
            { r with delivered := insert s r.delivered } := by
          simp [writeStep, sinkWrite, hs]
        rw [hstep]
        show List.foldlM (writeStep fails)
          { r with delivered := insert s r.delivered } rest = _
        rw [ih]
        refine congrArg Except.ok ?_
        have hfc1 : List.filter fails (s :: rest)
            = List.filter fails rest := by
          simp [List.filter_cons, hs]
        have hfc2 : List.filter (fun x => !fails x) (s :: rest)
            = s :: List.filter (fun x => !fails x) rest := by
          simp [List.filter_cons, hs]
        rw [hfc1, hfc2, List.toFinset_cons, insert_union_comm]

lemma StreamTee.write_eq (fails : Sink → Bool) (t : StreamTee) :
    StreamTee.write fails t = Except.ok
      { tee := StreamTee.mk (t.streams.filter (fun s => fails s = false)),
        delivered := t.streams.filter (fun s => fails s = false),
        closed := t.streams.filter (fun s => fails s = true) } := by
  unfold StreamTee.write
  rw [writeStep_foldlM]
  have hfil : ∀ p : Sink → Bool,
      ((t.streams.sort (· ≤ ·)).filter p).toFinset
        = t.streams.filter (fun s => p s = true) := by
    intro p
    rw [List.toFinset_filter, Finset.sort_toFinset]
  refine congrArg Except.ok ?_
  have h1 : t.streams \
      ((t.streams.sort (· ≤ ·)).filter fails).toFinset
        = t.streams.filter (fun s => fails s = false) := by
    rw [hfil]
    ext x
    simp only [Finset.mem_sdiff, Finset.mem_filter]
    constructor
    · rintro ⟨hx, hnx⟩
      refine ⟨hx, ?_⟩
      rcases Bool.eq_false_or_eq_true (fails x) with h | h
      · exact absurd ⟨hx, h⟩ hnx
      · exact h
    · rintro ⟨hx, hfx⟩
      exact ⟨hx, fun hmem => by simp [hfx] at hmem⟩
  have h2 : (∅ : Finset Sink) ∪
      ((t.streams.sort (· ≤ ·)).filter (fun s => !fails s)).toFinset
        = t.streams.filter (fun s => fails s = false) := by
    rw [Finset.empty_union, hfil]
    ext x
    simp [Bool.not_eq_true']
  have h3 : (∅ : Finset Sink) ∪
      ((t.streams.sort (· ≤ ·)).filter fails).toFinset
        = t.streams.filter (fun s => fails s = true) := by
    rw [Finset.empty_union, hfil]
  show WriteResult.mk (StreamTee.mk (t.streams \ _)) (∅ ∪ _) (∅ ∪ _) = _
  rw [h1, h2, h3]

/-- C5: for every snapshot set of sinks and every byte buffer, a
`StreamTee.write` call raises no exception to its caller (the result is
always `Except.ok`); the bytes are delivered to exactly the sinks whose
own write succeeded (so a failure on a sink X never prevents delivery to
the sinks other than X), and every failing sink is removed from the
tee's set and closed. -/
theorem c5_streamTee_write_best_effort (t : StreamTee) (fails : Sink → Bool) :
    StreamTee.write fails t = Except.ok
      { tee := StreamTee.mk (t.streams.filter (fun s => fails s = false)),
        delivered := t.streams.filter (fun s => fails s = false),
        closed := t.streams.filter (fun s => fails s = true) } :=
  StreamTee.write_eq fails t

lemma teeAfterWrite_eq (fails : Sink → Bool) (t : StreamTee) :
    teeAfterWrite fails t
      = StreamTee.mk (t.streams.filter (fun s => fails s = false)) := by
  unfold teeAfterWrite
  rw [StreamTee.write_eq]

lemma teeAfterWrite_not_mem (fails : Sink → Bool) (t : StreamTee) (X : Sink)
    (h : X ∉ t.streams) : X ∉ (teeAfterWrite fails t).streams := by
  rw [teeAfterWrite_eq]
  intro hmem
  exact h (Finset.mem_of_mem_filter X hmem)

/-- C4 counterexample: server with the single connected sink 0; sink 0's
write fails during a broadcast, so it is removed from the tee; then a new
client (sink 1) connects, triggering an `add_output` encode redirect.  The
redirect installs a tee built from `self.outputs` — which still contains
the failed sink 0, since the write failure only discarded it from the old
tee's private copy.  The next broadcast's snapshot therefore contains
sink 0 again even though it was never explicitly re-added: the claim is
false. -/
theorem c4_counterexample :
    (0 : Sink) ∉ ((TcpVideoStreamServer.mk {0} (StreamTee.mk {0})).broadcast
        (fun s => s == 0)).tee.streams
    ∧ (0 : Sink) ∈ (((TcpVideoStreamServer.mk {0} (StreamTee.mk {0})).broadcast
        (fun s => s == 0)).add_output 1).tee.streams := by
  constructor
  · rw [TcpVideoStreamServer.broadcast, teeAfterWrite_eq]
    decide
  · rw [TcpVideoStreamServer.add_output]
    decide

/-- C4 amended: the no-automatic-re-add invariant does hold for any fixed
`StreamTee` object: a sink that fails a write is removed from that tee's
set at once, and once a sink is absent from a tee's set, no sequence of
further broadcasts on that same tee ever re-adds it.  (As the
counterexample shows, it does not survive an `add_output`/`remove_output`
encode redirect, which installs a fresh tee built from `server.outputs`.) -/
theorem c4_amended_no_readd_within_tee (t : StreamTee) (X : Sink)
    (f : Sink → Bool) (l : List (Sink → Bool)) :
    (f X = true → X ∉ (teeAfterWrite f t).streams)
    ∧ (X ∉ t.streams → X ∉ (teeAfterBroadcasts l t).streams) := by
  constructor
  · intro hf
    rw [teeAfterWrite_eq]
    intro hmem
    rw [Finset.mem_filter] at hmem
    simp [hf] at hmem
  · intro h
    unfold teeAfterBroadcasts
    induction l generalizing t with
    | nil => exact h
    | cons g rest ih =>
        exact ih (teeAfterWrite g t) (teeAfterWrite_not_mem g t X h)

/-- C4 amended witness: concrete instance — after sink 0 fails a write on
the tee `{0, 1}`, broadcasts never re-add it. -/
theorem c4_amended_witness :
    (0 : Sink) ∉ (teeAfterWrite (fun s => s == 0) (StreamTee.mk {0, 1})).streams
    ∧ (0 : Sink) ∉ (teeAfterBroadcasts [fun _ => false]
        (teeAfterWrite (fun s => s == 0) (StreamTee.mk {0, 1}))).streams := by
  have h0 : (0 : Sink) ∉
      (teeAfterWrite (fun s => s == 0) (StreamTee.mk {0, 1})).streams :=
    (c4_amended_no_readd_within_tee (StreamTee.mk {0, 1}) 0
      (fun s => s == 0) []).1 (by decide)
  exact ⟨h0, (c4_amended_no_readd_within_tee
    (teeAfterWrite (fun s => s == 0) (StreamTee.mk {0, 1})) 0
    (fun s => s == 0) [fun _ => false]).2 h0⟩

/-- C9 counterexample: `interrupt()` is not idempotent.  Starting from an
empty queue with no waiter, calling `interrupt()` twice makes the *two*
following sleeps both return early, while calling it once makes only the
first sleep return early and the second block for its full duration: the
two call sequences do not have the same effect on subsequent sleeps,
because `queue.Queue()` is an unbounded queue, not a single-slot signal. -/
theorem c9_counterexample :
    (Timer.sleep (Timer.sleep (Timer.interrupt (Timer.interrupt 0))).2).1 = true
    ∧ (Timer.sleep (Timer.sleep (Timer.interrupt 0)).2).1 = false := by
  constructor
  · rfl
  · rfl

/-- C9 amended: `interrupt()` is safe with no waiter present and an
interrupt is never missed — a `sleep` that begins after an `interrupt()`
always returns early rather than blocking for its full duration, and a
`sleep` on an un-interrupted timer simply waits out its timeout (no
deadlock: `sleep` always returns).  However `interrupt()` is *not*
idempotent: each call enqueues one token into the unbounded queue, so n
calls make the next n sleeps return early. -/
theorem c9_amended_interrupt_never_missed (q : Timer) :
    (Timer.sleep (Timer.interrupt q)).1 = true
    ∧ Timer.interrupt q = q + 1
    ∧ Timer.sleep (0 : ℕ) = (false, 0) := by
  exact ⟨rfl, rfl, rfl⟩

lemma write_to_file_eq_true_iff (fails : Folder → Bool)
    (folders : Finset Folder) :
    write_to_file fails folders = true
      ↔ ∀ f ∈ folders, fails f = false := by
  unfold write_to_file
  induction folders using Finset.induction_on with
  | empty => simp
  | insert hx ih =>
      rw [Finset.fold_insert hx]
      simp only [Bool.and_eq_true, ih, Finset.mem_insert]
      constructor
      · rintro ⟨ha, hall⟩ f hf
        rcases hf with rfl | hf
        · simpa using ha
        · exact hall f hf
      · intro h
        refine ⟨by simp [h _ (Or.inl rfl)], fun f hf => h f (Or.inr hf)⟩

lemma fallback_loop_of_true (ff : Folder → Bool) (fallback : Finset Folder)
    (n : ℕ) :
    fallback_loop ff fallback n true = (true, 0) := by
  cases n with
  | zero => rfl
  | succ n => rfl

lemma fallback_loop_pos_iff (ff : Folder → Bool) (fallback : Finset Folder)
    (n : ℕ) (b : Bool) :
    0 < (fallback_loop ff fallback n b).2 ↔ (b = false ∧ n ≠ 0) := by
  cases n with
  | zero => simp [fallback_loop]
  | succ n =>
      cases b with
      | true => simp [fallback_loop]
      | false => simp [fallback_loop]

/-- C1 counterexample: primary folders `{0, 1}` where folder 0's write
succeeds and folder 1's write raises; fallback folder `{2}` is healthy.
`_write_to_file` returns `False` because *one* primary write failed, so
the run loop attempts the fallback set (one `_write_to_file` call on it,
writing folder 2) even though a primary write succeeded — refuting the
claim that fallback is attempted only when every primary write failed. -/
theorem c1_counterexample :
    (fun f => f == 1) (0 : Folder) = false
    ∧ (0 : Folder) ∈ ({0, 1} : Finset Folder)
    ∧ 0 < (run_tick (fun f => f == 1) (fun _ => false) {0, 1} {2}).2
    ∧ (2 : Folder) ∈ written_folders (fun _ => false) ({2} : Finset Folder) := by
  refine ⟨rfl, by decide, ?_, by decide⟩
  decide

/-- C1 amended: the scheduler attempts the fallback storage targets
exactly when at least one primary write failed (equivalently: unless
every primary write succeeded) and the fallback set is nonempty; in
particular, if every primary write succeeded, no fallback folder is
written for that tick. -/
theorem c1_amended_fallback_iff_some_primary_failed
    (pf ff : Folder → Bool) (primary fallback : Finset Folder) :
    0 < (run_tick pf ff primary fallback).2
      ↔ (¬ ∀ f ∈ primary, pf f = false) ∧ fallback.Nonempty := by
  unfold run_tick
  rw [fallback_loop_pos_iff]
  constructor
  · rintro ⟨hb, hn⟩
    refine ⟨?_, ?_⟩
    · intro hall
      rw [(write_to_file_eq_true_iff pf primary).mpr hall] at hb
      cases hb
    · rw [← Finset.card_pos]
      omega
  · rintro ⟨hnall, hne⟩
    refine ⟨?_, ?_⟩
    · rcases Bool.eq_false_or_eq_true (write_to_file pf primary) with h | h
      · exact absurd ((write_to_file_eq_true_iff pf primary).mp h) hnall
      · exact h
    · rw [← Finset.card_pos] at hne
      omega

/-- C1 amended witness: with primary `{0, 1}` where folder 1 fails and a
nonempty healthy fallback `{2}`, the fallback set is attempted. -/
theorem c1_amended_witness :
    0 < (run_tick (fun f => f == 1) (fun _ => false) {0, 1} {2}).2 :=
  (c1_amended_fallback_iff_some_primary_failed
      (fun f => f == 1) (fun _ => false) {0, 1} {2}).mpr
    ⟨by decide, ⟨2, by decide⟩⟩

/-- C10: `_write_to_file` on an empty folder collection returns `True`
(the `success` flag is never cleared by the empty loop), so a tick whose
primary root-folder set is empty is treated as successful: the fallback
loop makes zero `_write_to_file` calls on the fallback set, and no image
file is written into any folder. -/
theorem c10_empty_primary_vacuous_success
    (pf ff : Folder → Bool) (fallback : Finset Folder) :
    write_to_file pf (∅ : Finset Folder) = true
    ∧ (run_tick pf ff ∅ fallback).1 = true
    ∧ (run_tick pf ff ∅ fallback).2 = 0
    ∧ written_folders pf (∅ : Finset Folder) = ∅ := by
  have h0 : write_to_file pf (∅ : Finset Folder) = true := rfl
  refine ⟨h0, ?_, ?_, rfl⟩
  · unfold run_tick
    rw [h0, fallback_loop_of_true]
  · unfold run_tick
    rw [h0, fallback_loop_of_true]

/-- C2 counterexample: a tick whose still-capture call raises terminates
the run loop — the second scheduled cycle never executes and the loop
yields an escaped exception instead of a result list, refuting the claim
that the loop survives still-capture failures.  (By contrast, a cycle
whose every per-target write fails completes normally.) -/
theorem c2_counterexample :
    run_loop [CycleInput.mk true ∅ ∅ (fun _ => false) (fun _ => false),
        CycleInput.mk false ∅ ∅ (fun _ => false) (fun _ => false)]
      = Except.error ()
    ∧ run_loop [CycleInput.mk false {0} {1} (fun _ => true) (fun _ => true)]
      = Except.ok [(false, 1)] := by
  exact ⟨rfl, rfl⟩

/-- C2 amended: per-target write failures never terminate the run loop —
every cycle of a run in which no still-capture call raises completes, and
the loop finishes with a result for every tick (write failures are caught
inside `_write_to_file`, logged, and only clear the success flag).  A
still-capture exception, however, propagates out of `__run` and
terminates the loop, as the counterexample shows. -/
theorem c2_amended_write_failures_never_crash (l : List CycleInput)
    (h : ∀ c ∈ l, c.captureRaises = false) :
    ∃ rs, run_loop l = Except.ok rs := by
  induction l with
  | nil => exact ⟨[], rfl⟩
  | cons c rest ih =>
      have hc : c.captureRaises = false := h c (List.mem_cons_self c rest)
      obtain ⟨rs, hrs⟩ := ih (fun d hd => h d (List.mem_cons_of_mem c hd))
      refine ⟨run_tick c.pf c.ff c.primary c.fallback :: rs, ?_⟩
      simp [run_loop, run_cycle, hc, hrs]

/-- C2 amended witness: a cycle in which every primary and fallback write
fails still completes without crashing the loop. -/
theorem c2_amended_witness :
    ∃ rs, run_loop
        [CycleInput.mk false {0} {1} (fun _ => true) (fun _ => true)]
      = Except.ok rs :=
  c2_amended_write_failures_never_crash
    [CycleInput.mk false {0} {1} (fun _ => true) (fun _ => true)]
    (by
      intro c hc
      rcases List.mem_singleton.mp hc with rfl
      rfl)

/-- C3 counterexample: with the sub-second capture interval 0.5 s
(`interval = 500000` µs — all quantities involved are exactly
representable, so Python's float arithmetic agrees with the exact
arithmetic used here) and `now` at 10.4 s after midnight, the computed
next tick is 10.0 s after midnight, *before* `now`: `__floorTime` floors
using only the whole second-of-day, so the claim fails for intervals that
are not a whole number of seconds.  (`__wait_until_next_capture` then
clamps the delay to 0 and re-captures within the same floored slot.) -/
theorem c3_counterexample :
    next_capture 10400000 500000 = 10000000
    ∧ ¬ (10400000 < next_capture 10400000 500000) := by
  constructor
  · rfl
  · decide

lemma next_capture_eq (now i : ℕ) (hi : 0 < i) :
    next_capture now (i * 1000000)
      = (now / 1000000 + i - (now / 1000000 + i) % 86400 % i) * 1000000 := by
  have hdi : (now / 1000000 + i) % 86400 % i < i := Nat.mod_lt _ hi
  have hds : (now / 1000000 + i) % 86400 % i
      ≤ (now / 1000000 + i) % 86400 := Nat.mod_le _ _
  have hTm : (now + i * 1000000) % 1000000 = now % 1000000 := by omega
  have hTd : (now + i * 1000000) / 1000000 = now / 1000000 + i := by omega
  unfold next_capture floorTime microOf secOfDay
  rw [hTm, hTd, Nat.mul_mod_mul_right]
  omega

lemma sub_mod_self_div (s i : ℕ) : s - s % i = i * (s / i) := by
  have h := Nat.div_add_mod s i
  omega

/-- C3 amended: for every `now` and every capture interval that is a
positive whole number `i` of seconds, the next tick
`next = floor(now + interval, interval)` is strictly greater than `now`,
has a zero microsecond field, lies on an exact multiple of the interval
from the day boundary used for flooring, and is a fixed point of the
flooring — so consecutive ticks always land on distinct, strictly
increasing floored slots. -/
theorem c3_amended_next_capture_aligned (now i : ℕ) (hi : 0 < i) :
    now < next_capture now (i * 1000000)
    ∧ microOf (next_capture now (i * 1000000)) = 0
    ∧ secOfDay (next_capture now (i * 1000000)) % i = 0
    ∧ floorTime (next_capture now (i * 1000000)) (i * 1000000)
        = next_capture now (i * 1000000) := by
  have hdi : (now / 1000000 + i) % 86400 % i < i := Nat.mod_lt _ hi
  have hds : (now / 1000000 + i) % 86400 % i
      ≤ (now / 1000000 + i) % 86400 := Nat.mod_le _ _
  have hnext := next_capture_eq now i hi
  have hsec : secOfDay (next_capture now (i * 1000000))
      = (now / 1000000 + i) % 86400 - (now / 1000000 + i) % 86400 % i := by
    rw [hnext]
    unfold secOfDay
    omega
  have hdvd : ((now / 1000000 + i) % 86400
      - (now / 1000000 + i) % 86400 % i) % i = 0 := by
    rw [sub_mod_self_div]
    exact Nat.mul_mod_right i _
  refine ⟨?_, ?_, ?_, ?_⟩
  · rw [hnext]
    omega
  · rw [hnext]
    unfold microOf
    omega
  · rw [hsec]
    exact hdvd
  · unfold floorTime
    have hmicro : microOf (next_capture now (i * 1000000)) = 0 := by
      rw [hnext]
      unfold microOf
      omega
    have hzero : secOfDay (next_capture now (i * 1000000)) * 1000000
        % (i * 1000000) = 0 := by
      rw [Nat.mul_mod_mul_right, hsec, hdvd, Nat.zero_mul]
    rw [hmicro, hzero]
    omega

/-- C3 amended witness: the configured 60-second interval at `now` =
10.4 s after midnight: the next tick is strictly later and floor-aligned. -/
theorem c3_amended_witness :
    10400000 < next_capture 10400000 (60 * 1000000)
    ∧ microOf (next_capture 10400000 (60 * 1000000)) = 0
    ∧ secOfDay (next_capture 10400000 (60 * 1000000)) % 60 = 0 :=
  ⟨(c3_amended_next_capture_aligned 10400000 60 (by norm_num)).1,
   (c3_amended_next_capture_aligned 10400000 60 (by norm_num)).2.1,
   (c3_amended_next_capture_aligned 10400000 60 (by norm_num)).2.2.1⟩

/-- C7: the scheduler classifies `t` as night iff `t < dawn(t)` or
`dusk(t) < t`; both comparisons are strict, so whenever dawn does not
come after dusk (as delivered by the solar calculator), the boundary
instants `t = dawn(t)` and `t = dusk(t)` classify as day. -/
theorem c7_is_night_iff (dawn dusk : ℤ → ℤ) (t : ℤ) :
    (is_night dawn dusk t = true ↔ (t < dawn t ∨ dusk t < t))
    ∧ (dawn t ≤ dusk t → t = dawn t → is_night dawn dusk t = false)
    ∧ (dawn t ≤ dusk t → t = dusk t → is_night dawn dusk t = false) := by
  refine ⟨?_, ?_, ?_⟩
  · unfold is_night
    simp
  · intro hord hdawn
    unfold is_night
    simp only [Bool.or_eq_false_iff, decide_eq_false_iff_not, not_lt]
    omega
  · intro hord hdusk
    unfold is_night
    simp only [Bool.or_eq_false_iff, decide_eq_false_iff_not, not_lt]
    omega

/-- C7 witness: dawn 07:12 and dusk 18:45 (in minutes of day) at
`t` = dawn: classified as day. -/
theorem c7_witness :
    is_night (fun _ => (432 : ℤ)) (fun _ => (1125 : ℤ)) 432 = false :=
  (c7_is_night_iff (fun _ => (432 : ℤ)) (fun _ => (1125 : ℤ)) 432).2.1
    (by decide) rfl

lemma digitCharInj : ∀ a b : Fin 10,
    Char.ofNat (48 + (a : ℕ)) = Char.ofNat (48 + (b : ℕ)) → a = b := by
  decide

lemma mapDigits_inj : ∀ l1 l2 : List ℕ, (∀ d ∈ l1, d < 10) →
    (∀ d ∈ l2, d < 10) →
    l1.map (fun d => Char.ofNat (48 + d)) = l2.map (fun d => Char.ofNat (48 + d)) →
    l1 = l2
  | [], [], _, _, _ => rfl
  | [], _ :: _, _, _, h => by simp at h
  | _ :: _, [], _, _, h => by simp at h
  | a :: l1, b :: l2, h1, h2, h => by
      rw [List.map_cons, List.map_cons] at h
      have hab : a = b := by
        have ha : a < 10 := h1 a (List.mem_cons_self a l1)
        have hb : b < 10 := h2 b (List.mem_cons_self b l2)
        have := digitCharInj ⟨a, ha⟩ ⟨b, hb⟩ (List.head_eq_of_cons_eq h)
        exact congrArg Fin.val this
      have htail := mapDigits_inj l1 l2
        (fun d hd => h1 d (List.mem_cons_of_mem a hd))
        (fun d hd => h2 d (List.mem_cons_of_mem b hd))
        (List.tail_eq_of_cons_eq h)
      rw [hab, htail]

lemma natDecimal_inj {a b : ℕ} (h : natDecimal a = natDecimal b) : a = b := by
  have hbound : ∀ n : ℕ, ∀ d ∈ (Nat.digits 10 n).reverse, d < 10 := by
    intro n d hd
    exact Nat.digits_lt_base (by norm_num) (List.mem_reverse.mp hd)
  have hrev := mapDigits_inj _ _ (hbound a) (hbound b) h
  have hdig : Nat.digits 10 a = Nat.digits 10 b :=
    List.reverse_injective hrev
  calc a = Nat.ofDigits 10 (Nat.digits 10 a) := (Nat.ofDigits_digits 10 a).symm
  _ = Nat.ofDigits 10 (Nat.digits 10 b) := by rw [hdig]
  _ = b := Nat.ofDigits_digits 10 b

lemma suffixStr_data_inj {i j : ℕ}
    (h : (suffixStr i).data = (suffixStr j).data) : i = j := by
  unfold suffixStr at h
  by_cases hi : i = 0 <;> by_cases hj : j = 0
  · rw [hi, hj]
  · rw [if_pos hi, if_neg hj] at h
    rw [String.data_append] at h
    simp at h
  · rw [if_neg hi, if_pos hj] at h
    rw [String.data_append] at h
    simp at h
  · rw [if_neg hi, if_neg hj, String.data_append, String.data_append] at h
    have hn : natDecimal i = natDecimal j := by
      have := List.append_cancel_left h
      exact this
    exact natDecimal_inj hn

lemma candidate_inj (root datestr datetimestr md5sum : String)
    (night : Bool) :
    Function.Injective (candidate root datestr datetimestr md5sum night) := by
  intro i j h
  have hd := congrArg String.data h
  simp only [candidate, fileNameStr, String.data_append,
    List.append_assoc] at hd
  replace hd := List.append_cancel_left hd
  replace hd := List.append_cancel_left hd
  replace hd := List.append_cancel_left hd
  replace hd := List.append_cancel_left hd
  replace hd := List.append_cancel_left hd
  replace hd := List.append_cancel_left hd
  replace hd := List.append_cancel_left hd
  replace hd := List.append_cancel_left hd
  replace hd := List.append_cancel_left hd
  replace hd := List.append_cancel_right hd
  exact suffixStr_data_inj hd

lemma exists_cand_free (ex : Finset String)
    (root datestr datetimestr md5sum : String) (night : Bool) :
    ∃ j, j < ex.card + 1
      ∧ candidate root datestr datetimestr md5sum night j ∉ ex := by
  by_contra hcon
  push_neg at hcon
  have hsub : (Finset.range (ex.card + 1)).image
      (candidate root datestr datetimestr md5sum night) ⊆ ex := by
    intro x hx
    rw [Finset.mem_image] at hx
    obtain ⟨j, hj, rfl⟩ := hx
    exact hcon j (Finset.mem_range.mp hj)
  have hcard : ((Finset.range (ex.card + 1)).image
      (candidate root datestr datetimestr md5sum night)).card
        = ex.card + 1 := by
    rw [Finset.card_image_of_injective _
      (candidate_inj root datestr datetimestr md5sum night),
      Finset.card_range]
  have hle := Finset.card_le_card hsub
  omega

lemma find_free_spec (ex : Finset String)
    (root datestr datetimestr md5sum : String) (night : Bool) :
    ∀ fuel k : ℕ,
    (∃ j, j < fuel
      ∧ candidate root datestr datetimestr md5sum night (k + j) ∉ ex) →
    (candidate root datestr datetimestr md5sum night
        (find_free ex root datestr datetimestr md5sum night fuel k) ∉ ex
      ∧ k ≤ find_free ex root datestr datetimestr md5sum night fuel k
      ∧ ∀ j, k ≤ j → j < find_free ex root datestr datetimestr md5sum night fuel k →
          candidate root datestr datetimestr md5sum night j ∈ ex) := by
  intro fuel
  induction fuel with
  | zero =>
      intro k h
      obtain ⟨j, hj, _⟩ := h
      omega
  | succ fuel ih =>
      intro k h
      by_cases hk : candidate root datestr datetimestr md5sum night k ∈ ex
      · have hshift : ∃ j, j < fuel
            ∧ candidate root datestr datetimestr md5sum night (k + 1 + j) ∉ ex := by
          obtain ⟨j, hj, hfree⟩ := h
          cases j with
          | zero => exact absurd hk (by simpa using hfree)
          | succ j' =>
              exact ⟨j', by omega, by
                have : k + Nat.succ j' = k + 1 + j' := by omega
                rw [this] at hfree
                exact hfree⟩
        have hrec := ih (k + 1) hshift
        have hstep : find_free ex root datestr datetimestr md5sum night
            (Nat.succ fuel) k
              = find_free ex root datestr datetimestr md5sum night fuel (k + 1) := by
          unfold find_free
          rw [if_pos hk]
          cases fuel <;> rfl
        rw [hstep]
        refine ⟨hrec.1, by omega, ?_⟩
        intro j hkj hlt
        by_cases hjk : j = k
        · rw [hjk]
          exact hk
        · exact hrec.2.2 j (by omega) hlt
      · have hstep : find_free ex root datestr datetimestr md5sum night
            (Nat.succ fuel) k = k := by
          unfold find_free
          rw [if_neg hk]
        rw [hstep]
        exact ⟨hk, le_refl k, fun j h1 h2 => by omega⟩

/-- C6: `generate_filename` is deterministic by construction (a pure
function of the filesystem state and of root folder, rendered timestamp,
digest and night flag), and (1) the returned path does not exist at the
time it returns; (2) the returned path is candidate number `k` for some
`k` such that every earlier candidate (the unsuffixed path, `_1`, `_2`,
…, in incrementing order) already exists; (3) once the returned path
exists on the filesystem (in any later state `ex2` containing it), a
repeated call yields a different path — a previously issued name is
never reused. -/
theorem c6_generate_filename_fresh (ex ex2 : Finset String)
    (root datestr datetimestr md5sum : String) (night : Bool) :
    generate_filename ex root datestr datetimestr md5sum night ∉ ex
    ∧ (∃ k, generate_filename ex root datestr datetimestr md5sum night
          = candidate root datestr datetimestr md5sum night k
        ∧ ∀ j < k, candidate root datestr datetimestr md5sum night j ∈ ex)
    ∧ (generate_filename ex root datestr datetimestr md5sum night ∈ ex2 →
        generate_filename ex2 root datestr datetimestr md5sum night
          ≠ generate_filename ex root datestr datetimestr md5sum night) := by
  have hex := exists_cand_free ex root datestr datetimestr md5sum night
  have hspec := find_free_spec ex root datestr datetimestr md5sum night
    (ex.card + 1) 0
    (by
      obtain ⟨j, hj, hfree⟩ := hex
      exact ⟨j, hj, by simpa using hfree⟩)
  refine ⟨hspec.1, ⟨find_free ex root datestr datetimestr md5sum night
    (ex.card + 1) 0, rfl, fun j hj => hspec.2.2 j (Nat.zero_le j) hj⟩, ?_⟩
  intro hmem
  have hex2 := exists_cand_free ex2 root datestr datetimestr md5sum night
  have hspec2 := find_free_spec ex2 root datestr datetimestr md5sum night
    (ex2.card + 1) 0
    (by
      obtain ⟨j, hj, hfree⟩ := hex2
      exact ⟨j, hj, by simpa using hfree⟩)
  intro heq
  apply hspec2.1
  show generate_filename ex2 root datestr datetimestr md5sum night ∈ ex2
  rw [heq]
  exact hmem

/-- C6 witness: on an empty filesystem the generated name is fresh, and
once that name exists a second call returns a different name. -/
theorem c6_witness :
    generate_filename ∅ "/r" "20200101" "20200101_120000"
        "d41d8cd98f00b204e9800998ecf8427e" false ∉ (∅ : Finset String)
    ∧ generate_filename
        {generate_filename ∅ "/r" "20200101" "20200101_120000"
          "d41d8cd98f00b204e9800998ecf8427e" false}
        "/r" "20200101" "20200101_120000"
        "d41d8cd98f00b204e9800998ecf8427e" false
      ≠ generate_filename ∅ "/r" "20200101" "20200101_120000"
          "d41d8cd98f00b204e9800998ecf8427e" false :=
  ⟨(c6_generate_filename_fresh ∅ ∅ "/r" "20200101" "20200101_120000"
      "d41d8cd98f00b204e9800998ecf8427e" false).1,
   (c6_generate_filename_fresh ∅
      {generate_filename ∅ "/r" "20200101" "20200101_120000"
        "d41d8cd98f00b204e9800998ecf8427e" false}
      "/r" "20200101" "20200101_120000"
      "d41d8cd98f00b204e9800998ecf8427e" false).2.2
    (Finset.mem_singleton_self _)⟩

/-- C8: the round trip fails — for the basename generated for the md5
digest `d41d8cd98f00b204e9800998ecf8427e` (an arbitrary 32-hex-digit
digest) at timestamp `20200101_120000`, the mover's basename parser
returns `none` rather than the digest: the regex (missing `{}` around
`32`) demands a single hex character followed by the literal text `32`
and then `_` or `.`, which a 32-hex-digit tag can never satisfy, so
`get_md5sum` always falls back to hashing the file contents. -/
theorem c8_roundtrip_fails :
    get_md5sum_from_basename
        (fileNameStr "20200101_120000" "d41d8cd98f00b204e9800998ecf8427e"
          (suffixStr 0))
      = none
    ∧ get_md5sum_from_basename
        (fileNameStr "20200101_120000" "d41d8cd98f00b204e9800998ecf8427e"
          (suffixStr 0))
      ≠ some "d41d8cd98f00b204e9800998ecf8427e" := by
  refine ⟨?_, ?_⟩
  · decide
  · decide
